import Mathlib

/-!
# Verification of `src/hook_open.js`

A shallow embedding of the instrumentation probe in `hook_open.js`.
The script, on load, prints a load marker with `console.log`, then calls
`setTimeout(cb, 1000)`; the callback calls `Java.perform` with a body that
prints three more diagnostic lines (the first of those strings begins with
an embedded newline).

The host instrumentation runtime (the scheduling primitive `setTimeout`,
the managed-runtime context entry `Java.perform`, and the console sink) is
modelled per the spec's boundary-dependency description: a one-shot timer
store, a flag saying whether the managed runtime context is obtainable,
and a log of (timestamp, message) write events.  The host's nondeterminism
(time passing, the timer firing once due, the process exiting) is a small
step relation `Step`; `Reachable` are the states reachable after the
script has been loaded.
-/

namespace HookOpen

/-- The string of the `console.log` at line 3 of `hook_open.js` (load marker). -/
def loadMsg : String := "[*] 测试脚本(v12)已注入..."

/-- The visible text of the attachment-success marker (what follows the
leading newline of the second `console.log` string). -/
def attachLine : String := "[+] 脚本成功在目标进程中运行！"

/-- The string of the `console.log` at line 10: it begins with an embedded
`\n` before the attachment-success marker. -/
def attachMsg : String := "\n[+] 脚本成功在目标进程中运行！"

/-- The string of the `console.log` at line 11 (runtime-ready marker). -/
def javaReadyMsg : String := "[+] Java 环境准备就绪。"

/-- The string of the `console.log` at line 12 (confirmation-of-no-crash marker). -/
def noCrashMsg : String := "[+] 如果您能看到这条消息，说明附加成功且程序未崩溃。"

/-- The two callback bodies occurring in the script: the `setTimeout`
callback (lines 6–15) and the `Java.perform` callback (lines 9–13). -/
inductive Code where
  | timeoutCb : Code
  | performCb : Code
deriving DecidableEq, Repr

/-- A pending one-shot timer owned by the host runtime: its absolute due
time, the delay it was registered with, and its callback. -/
structure Timer where
  due : Nat
  delay : Nat
  cb : Code
deriving DecidableEq, Repr

/-- Host-visible state: current time (ms), whether the target process is
still alive, the pending one-shot timers, how many timers ever fired, how
many were ever scheduled, the console log as (timestamp, message) write
events, and whether an unhandled error has propagated to the host. -/
structure HostState where
  now : Nat
  alive : Bool
  timers : List Timer
  firedCount : Nat
  scheduledCount : Nat
  log : List (Nat × String)
  errored : Bool
deriving DecidableEq, Repr

/-- The host state at the instant the script is injected, before any of
its code runs. -/
def initialState : HostState :=
  { now := 0, alive := true, timers := [], firedCount := 0,
    scheduledCount := 0, log := [], errored := false }

/-- `console.log(msg)`: appends one write event, stamped with the current
time, to the console sink. -/
def consoleLog (msg : String) (s : HostState) : HostState :=
  { s with log := s.log ++ [(s.now, msg)] }

/-- `setTimeout(cb, d)`: registers a one-shot timer due `d` ms from now. -/
def setTimeout (cb : Code) (d : Nat) (s : HostState) : HostState :=
  { s with timers := s.timers ++ [⟨s.now + d, d, cb⟩],
           scheduledCount := s.scheduledCount + 1 }

/-- `Java.perform(body)`: if the managed-runtime context is obtainable the
body runs inside it; otherwise the failure propagates unhandled to the
host (recorded in `errored`) and the body never runs.  The script installs
no handler, so nothing else happens. -/
def javaPerform (javaAvailable : Bool) (body : HostState → HostState)
    (s : HostState) : HostState :=
  if javaAvailable then body s else { s with errored := true }

/-- The body of the `Java.perform` callback (lines 10–12): three
`console.log` calls in order. -/
def performBody (s : HostState) : HostState :=
  consoleLog noCrashMsg (consoleLog javaReadyMsg (consoleLog attachMsg s))

/-- The body of the `setTimeout` callback (lines 6–15): a single
`Java.perform(performBody)` call. -/
def timeoutBody (javaAvailable : Bool) (s : HostState) : HostState :=
  javaPerform javaAvailable performBody s

/-- Dispatch from a stored callback tag to its body. -/
def runCode (javaAvailable : Bool) : Code → HostState → HostState
  | Code.timeoutCb => timeoutBody javaAvailable
  | Code.performCb => performBody

/-- The script's top level (lines 3–15): one `console.log`, then one
`setTimeout(timeoutCb, 1000)`. -/
def loadScript (s : HostState) : HostState :=
  setTimeout Code.timeoutCb 1000 (consoleLog loadMsg s)

/-- The state right after the script has been loaded (time 0). -/
def sLoaded : HostState := loadScript initialState

/-- The one timer the script registers: due at 1000 ms, delay 1000 ms,
running the `setTimeout` callback. -/
def theTimer : Timer := ⟨1000, 1000, Code.timeoutCb⟩

/-- Host lets `k` milliseconds pass. -/
def tickBy (k : Nat) (s : HostState) : HostState :=
  { s with now := s.now + k }

/-- Host fires the pending timer `t`: it is discarded from the pending
set, counted as fired, and its callback body runs. -/
def fireTimer (javaAvailable : Bool) (t : Timer) (s : HostState) : HostState :=
  runCode javaAvailable t.cb
    { s with timers := s.timers.erase t, firedCount := s.firedCount + 1 }

/-- The target process terminates. -/
def exitProcess (s : HostState) : HostState :=
  { s with alive := false }

/-- One host step after load: time passes, a due pending timer fires, or
the process terminates.  Every step requires the process to be alive, so
dead states are terminal. -/
inductive Step (javaAvailable : Bool) : HostState → HostState → Prop where
  | tick (k : Nat) (s : HostState) (h : s.alive = true) :
      Step javaAvailable s (tickBy k s)
  | fire (t : Timer) (s : HostState) (h : s.alive = true)
      (hmem : t ∈ s.timers) (hdue : t.due ≤ s.now) :
      Step javaAvailable s (fireTimer javaAvailable t s)
  | exit (s : HostState) (h : s.alive = true) :
      Step javaAvailable s (exitProcess s)

/-- States reachable once the script has been injected and its top level
has run. -/
inductive Reachable (javaAvailable : Bool) : HostState → Prop where
  | load : Reachable javaAvailable sLoaded
  | step {s s' : HostState} : Reachable javaAvailable s →
      Step javaAvailable s s' → Reachable javaAvailable s'

/-- Host behaviour at a moment when timers may be due: fires the front
pending timer if its due time has arrived (the host guarantee that a
registered one-shot timer fires once due while the process lives). -/
def fireDue (javaAvailable : Bool) (s : HostState) : HostState :=
  match s.timers with
  | [] => s
  | t :: _ => if t.due ≤ s.now then fireTimer javaAvailable t s else s

/-- The canonical faithful host schedule, parametrised by the lifetime of
the target process: `none` means the process outlives the run; `some T`
means it terminates at `T` ms after load.  The host fires the due timer
at 1000 ms whenever the process is still alive then. -/
def hostRun (javaAvailable : Bool) : Option Nat → HostState
  | none => fireDue javaAvailable (tickBy 1000 sLoaded)
  | some T =>
      if T < 1000 then exitProcess (tickBy T sLoaded)
      else exitProcess
        (tickBy (T - 1000) (fireDue javaAvailable (tickBy 1000 sLoaded)))

/-- What the console sink physically receives: every `console.log(m)` call
writes `m` followed by a newline. -/
def renderOutput (log : List (Nat × String)) : String :=
  String.join (log.map (fun e => e.snd ++ "\n"))

/-- Split a character stream at newline characters (so a stream ending in
a newline yields a trailing empty segment). -/
def splitLines : List Char → List (List Char)
  | [] => [[]]
  | c :: rest =>
      if c = '\n' then [] :: splitLines rest
      else
        match splitLines rest with
        | [] => [[c]]
        | l :: ls => (c :: l) :: ls

/-- The newline-delimited lines of a string, as strings. -/
def outputLines (out : String) : List String :=
  (splitLines out.data).map (fun l => String.mk l)

/-- The inductive invariant of the loaded probe.  Exactly one timer was
ever scheduled.  Either the timer has not fired yet — it is still pending
and only the load marker was written, at time 0 — or it has fired, at some
time `t ≥ 1000`, and the log is the load marker followed (when the managed
runtime context was obtainable) by the three diagnostic lines stamped `t`,
or (when it was not) by nothing, with the failure propagated. -/
def Inv (javaAvailable : Bool) (s : HostState) : Prop :=
  s.scheduledCount = 1 ∧
  ((s.firedCount = 0 ∧ s.timers = [theTimer] ∧
      s.log = [(0, loadMsg)] ∧ s.errored = false) ∨
   (s.firedCount = 1 ∧ s.timers = [] ∧
      ∃ t, 1000 ≤ t ∧ t ≤ s.now ∧
        (javaAvailable = true →
           s.log = [(0, loadMsg), (t, attachMsg), (t, javaReadyMsg), (t, noCrashMsg)] ∧
             s.errored = false) ∧
        (javaAvailable = false → s.log = [(0, loadMsg)] ∧ s.errored = true)))

theorem step_preserves_inv {javaAvailable : Bool} {s s' : HostState}
    (hs : Inv javaAvailable s) (hstep : Step javaAvailable s s') :
    Inv javaAvailable s' := by
  cases hstep with
  | tick k _ h =>
      obtain ⟨hsched, hl | hr⟩ := hs
      · exact ⟨hsched, Or.inl hl⟩
      · obtain ⟨hfc, htm, t, ht1, ht2, hrest⟩ := hr
        refine ⟨hsched, Or.inr ⟨hfc, htm, t, ht1,
          le_trans ht2 (Nat.le_add_right _ _), hrest⟩⟩
  | exit _ h => exact hs
  | fire t _ h hmem hdue =>
      obtain ⟨hsched, hl | hr⟩ := hs
      · obtain ⟨hfc, htm, hlog, herr⟩ := hl
        rw [htm] at hmem
        have ht : t = theTimer := by simpa using hmem
        subst ht
        have hnow : 1000 ≤ s.now := hdue
        cases javaAvailable with
        | true =>
            refine ⟨hsched, Or.inr ⟨?_, ?_, s.now, hnow, le_refl _, ?_, ?_⟩⟩ <;>
              simp [fireTimer, runCode, timeoutBody, javaPerform, performBody,
                consoleLog, theTimer, htm, hfc, hlog, herr, List.erase_cons_head]
        | false =>
            refine ⟨hsched, Or.inr ⟨?_, ?_, s.now, hnow, le_refl _, ?_, ?_⟩⟩ <;>
              simp [fireTimer, runCode, timeoutBody, javaPerform, theTimer,
                htm, hfc, hlog, herr, List.erase_cons_head]
      · obtain ⟨hfc, htm, _⟩ := hr
        rw [htm] at hmem
        exact absurd hmem (List.not_mem_nil t)

theorem reachable_inv {javaAvailable : Bool} {s : HostState}
    (h : Reachable javaAvailable s) : Inv javaAvailable s := by
  induction h with
  | load =>
      refine ⟨rfl, Or.inl ⟨rfl, ?_, ?_, rfl⟩⟩ <;> decide
  | step _ hstep ih => exact step_preserves_inv ih hstep

/-- The run that lets `t ≥ 1000` ms pass and then fires the due timer is a
legal host behaviour. -/
theorem fireAt_reachable (javaAvailable : Bool) (t : Nat) (h : 1000 ≤ t) :
    Reachable javaAvailable (fireTimer javaAvailable theTimer (tickBy t sLoaded)) := by
  refine Reachable.step (Reachable.step Reachable.load
    (Step.tick t sLoaded rfl)) (Step.fire theTimer _ rfl ?_ ?_)
  · show theTimer ∈ sLoaded.timers
    decide
  · show theTimer.due ≤ sLoaded.now + t
    simpa [theTimer, sLoaded, loadScript, setTimeout, consoleLog, initialState] using h

/-- Every state produced by the canonical host schedule is reachable. -/
theorem hostRun_reachable (javaAvailable : Bool) (lt : Option Nat) :
    Reachable javaAvailable (hostRun javaAvailable lt) := by
  cases lt with
  | none =>
      have heq : hostRun javaAvailable none =
          fireTimer javaAvailable theTimer (tickBy 1000 sLoaded) := rfl
      rw [heq]
      exact fireAt_reachable javaAvailable 1000 (le_refl _)
  | some T =>
      by_cases hT : T < 1000
      · have heq : hostRun javaAvailable (some T) =
            exitProcess (tickBy T sLoaded) := by
          simp only [hostRun, if_pos hT]
        rw [heq]
        exact Reachable.step (Reachable.step Reachable.load
          (Step.tick T sLoaded rfl)) (Step.exit _ rfl)
      · have hfd : fireDue javaAvailable (tickBy 1000 sLoaded) =
            fireTimer javaAvailable theTimer (tickBy 1000 sLoaded) := rfl
        have heq : hostRun javaAvailable (some T) =
            exitProcess (tickBy (T - 1000)
              (fireTimer javaAvailable theTimer (tickBy 1000 sLoaded))) := by
          simp only [hostRun, if_neg hT, hfd]
        rw [heq]
        exact Reachable.step (Reachable.step
          (fireAt_reachable javaAvailable 1000 (le_refl _))
          (Step.tick (T - 1000) _ (by cases javaAvailable <;> rfl)))
          (Step.exit _ (by cases javaAvailable <;> rfl))

/-- Shape of the console log in any reachable state: either only the load
marker (written at time 0), or — after a complete run — the load marker
followed by the three diagnostic lines, all stamped with the fire time. -/
theorem log_cases {javaAvailable : Bool} {s : HostState}
    (hr : Reachable javaAvailable s) :
    s.log = [(0, loadMsg)] ∨
    ∃ t, 1000 ≤ t ∧
      s.log = [(0, loadMsg), (t, attachMsg), (t, javaReadyMsg), (t, noCrashMsg)] := by
  obtain ⟨hsched, hl | hr'⟩ := reachable_inv hr
  · exact Or.inl hl.2.2.1
  · obtain ⟨hfc, htm, t, ht1, ht2, hT, hF⟩ := hr'
    cases javaAvailable with
    | true => exact Or.inr ⟨t, ht1, (hT rfl).1⟩
    | false => exact Or.inl (hF rfl).1

/-- In a run with the managed runtime reachable, once the timer has fired
the log is exactly the four writes, the last three stamped with one common
fire time at least 1000 ms. -/
theorem fired_log {s : HostState} (hr : Reachable true s)
    (hf : s.firedCount = 1) :
    ∃ t, 1000 ≤ t ∧
      s.log = [(0, loadMsg), (t, attachMsg), (t, javaReadyMsg), (t, noCrashMsg)] := by
  obtain ⟨hsched, hl | hr'⟩ := reachable_inv hr
  · exact absurd hf (by rw [hl.1]; decide)
  · obtain ⟨hfc, htm, t, ht1, ht2, hT, hF⟩ := hr'
    exact ⟨t, ht1, (hT rfl).1⟩

/-- Claim C1: in every complete run — the timer has fired
(`firedCount = 1`) and the managed-runtime context callback executed
(`javaAvailable = true`) — the probe's observable side effects are exactly
four log writes, in the fixed order load marker, attachment marker,
runtime-ready marker, no-crash marker; the last three carry one common
timestamp `t` with `t ≥ 1000`, i.e. the configured 1000 ms delay separates
the first line (written at time 0) from the rest. -/
theorem C1_complete_run_exactly_four_log_writes (s : HostState)
    (hr : Reachable true s) (hf : s.firedCount = 1) :
    s.log.map Prod.snd = [loadMsg, attachMsg, javaReadyMsg, noCrashMsg] ∧
    ∃ t, 1000 ≤ t ∧
      s.log = [(0, loadMsg), (t, attachMsg), (t, javaReadyMsg), (t, noCrashMsg)] := by
  obtain ⟨t, ht, hlog⟩ := fired_log hr hf
  exact ⟨by rw [hlog]; rfl, t, ht, hlog⟩

/-- Witness for C1: the concrete complete run whose timer fires at
exactly 1000 ms. -/
theorem C1_witness :
    (fireTimer true theTimer (tickBy 1000 sLoaded)).log.map Prod.snd =
      [loadMsg, attachMsg, javaReadyMsg, noCrashMsg] ∧
    ∃ t, 1000 ≤ t ∧
      (fireTimer true theTimer (tickBy 1000 sLoaded)).log =
        [(0, loadMsg), (t, attachMsg), (t, javaReadyMsg), (t, noCrashMsg)] :=
  C1_complete_run_exactly_four_log_writes _
    (fireAt_reachable true 1000 (by decide)) (by decide)

/-- Claim C2: if the process survives at least 1000 ms after load (its
lifetime is unbounded or some `T ≥ 1000`), the faithful host schedule
yields the log in which each of the three attachment/readiness lines
occurs exactly once, in the fixed order, strictly after the load marker
(list positions 1–3 after position 0; timestamps 1000 after 0). -/
theorem C2_survival_emits_three_lines (lt : Option Nat)
    (hsurv : ∀ T, lt = some T → 1000 ≤ T) :
    (hostRun true lt).log =
      [(0, loadMsg), (1000, attachMsg), (1000, javaReadyMsg), (1000, noCrashMsg)] ∧
    ((hostRun true lt).log.map Prod.snd).count attachMsg = 1 ∧
    ((hostRun true lt).log.map Prod.snd).count javaReadyMsg = 1 ∧
    ((hostRun true lt).log.map Prod.snd).count noCrashMsg = 1 := by
  cases lt with
  | none => decide
  | some T =>
      have hT : 1000 ≤ T := hsurv T rfl
      have heq : hostRun true (some T) =
          exitProcess (tickBy (T - 1000) (fireDue true (tickBy 1000 sLoaded))) := by
        simp only [hostRun, if_neg (by omega : ¬ T < 1000)]
      rw [heq]
      exact ⟨rfl, rfl, rfl, rfl⟩

/-- Witness for C2: the unbounded-lifetime run. -/
theorem C2_witness :
    (hostRun true none).log =
      [(0, loadMsg), (1000, attachMsg), (1000, javaReadyMsg), (1000, noCrashMsg)] ∧
    ((hostRun true none).log.map Prod.snd).count attachMsg = 1 ∧
    ((hostRun true none).log.map Prod.snd).count javaReadyMsg = 1 ∧
    ((hostRun true none).log.map Prod.snd).count noCrashMsg = 1 :=
  C2_survival_emits_three_lines none (fun _ h => nomatch h)

/-- Claim C3: the load marker is written synchronously at load time — it
is already the whole log of the loaded state, stamped with time 0, before
any host step — and in every reachable state it is still the first write
and occurs exactly once. -/
theorem C3_load_marker_synchronous_once (javaAvailable : Bool)
    (s : HostState) (hr : Reachable javaAvailable s) :
    sLoaded.log = [(0, loadMsg)] ∧
    s.log.head? = some (0, loadMsg) ∧
    (s.log.map Prod.snd).count loadMsg = 1 := by
  refine ⟨rfl, ?_, ?_⟩ <;>
    rcases log_cases hr with h | ⟨t, ht, h⟩ <;> rw [h] <;> rfl

/-- Witness for C3: the loaded state itself. -/
theorem C3_witness :
    sLoaded.log = [(0, loadMsg)] ∧
    sLoaded.log.head? = some (0, loadMsg) ∧
    (sLoaded.log.map Prod.snd).count loadMsg = 1 :=
  C3_load_marker_synchronous_once true sLoaded Reachable.load

/-- Claim C4: the deferred action is one-shot — in every reachable state
it has been invoked at most once, and once it has fired no pending timer
remains, so no later step can invoke it a second time. -/
theorem C4_deferred_action_one_shot (javaAvailable : Bool)
    (s : HostState) (hr : Reachable javaAvailable s) :
    s.firedCount ≤ 1 ∧ (s.firedCount = 1 → s.timers = []) := by
  obtain ⟨hsched, hl | hr'⟩ := reachable_inv hr
  · rw [hl.1]
    exact ⟨by decide, fun h => absurd h (by decide)⟩
  · rw [hr'.1]
    exact ⟨le_refl 1, fun _ => hr'.2.1⟩

/-- Witness for C4: the loaded state itself. -/
theorem C4_witness :
    sLoaded.firedCount ≤ 1 ∧ (sLoaded.firedCount = 1 → sLoaded.timers = []) :=
  C4_deferred_action_one_shot true sLoaded Reachable.load

/-- Claim C5: the deferred action's whole behaviour is a single
`Java.perform` request passing the in-context body; inside the context
exactly the three diagnostic lines are written (touching nothing else of
the state), and if the context is not entered no line at all is written. -/
theorem C5_deferred_action_behaviour (javaAvailable : Bool) (s : HostState) :
    runCode javaAvailable Code.timeoutCb s = javaPerform javaAvailable performBody s ∧
    (performBody s).log =
      s.log ++ [(s.now, attachMsg), (s.now, javaReadyMsg), (s.now, noCrashMsg)] ∧
    (performBody s).timers = s.timers ∧
    (performBody s).firedCount = s.firedCount ∧
    (performBody s).scheduledCount = s.scheduledCount ∧
    (runCode false Code.timeoutCb s).log = s.log := by
  refine ⟨rfl, ?_, rfl, rfl, rfl, rfl⟩
  simp [performBody, consoleLog]

/-- Claim C6: the probe schedules exactly one deferred action at load,
with delay exactly 1000 ms and the `setTimeout` callback, and never
reschedules: every reachable state still counts exactly one scheduling
ever, and any pending timer is that one. -/
theorem C6_single_schedule_fixed_delay (javaAvailable : Bool)
    (s : HostState) (hr : Reachable javaAvailable s) :
    sLoaded.timers = [theTimer] ∧ theTimer.delay = 1000 ∧
    theTimer.cb = Code.timeoutCb ∧ sLoaded.scheduledCount = 1 ∧
    s.scheduledCount = 1 ∧ ∀ t ∈ s.timers, t = theTimer := by
  obtain ⟨hsched, hl | hr'⟩ := reachable_inv hr
  · exact ⟨rfl, rfl, rfl, rfl, hsched, by rw [hl.2.1]; simp⟩
  · exact ⟨rfl, rfl, rfl, rfl, hsched, by rw [hr'.2.1]; simp⟩

/-- Witness for C6: the loaded state itself. -/
theorem C6_witness :
    sLoaded.timers = [theTimer] ∧ theTimer.delay = 1000 ∧
    theTimer.cb = Code.timeoutCb ∧ sLoaded.scheduledCount = 1 ∧
    sLoaded.scheduledCount = 1 ∧ ∀ t ∈ sLoaded.timers, t = theTimer :=
  C6_single_schedule_fixed_delay true sLoaded Reachable.load

/-- Claim C7: if the process terminates before 1000 ms elapse, the timer
never fired: any reachable state earlier than 1000 ms carries exactly the
load-marker write and an otherwise untouched probe state (nothing fired,
no error), and a dead state admits no further step, so no partial late
output is ever observed. -/
theorem C7_early_termination_only_load_marker (javaAvailable : Bool)
    (s : HostState) (hr : Reachable javaAvailable s) (hlt : s.now < 1000) :
    s.log = [(0, loadMsg)] ∧ s.firedCount = 0 ∧ s.errored = false ∧
    (∀ s', s.alive = false → ¬ Step javaAvailable s s') := by
  have hterm : ∀ s', s.alive = false → ¬ Step javaAvailable s s' := by
    intro s' hdead hstep
    cases hstep with
    | tick k _ h => simp [hdead] at h
    | fire t _ h hmem hdue => simp [hdead] at h
    | exit _ h => simp [hdead] at h
  obtain ⟨hsched, hl | hr'⟩ := reachable_inv hr
  · exact ⟨hl.2.2.1, hl.1, hl.2.2.2, hterm⟩
  · obtain ⟨hfc, htm, t, ht1, ht2, hT, hF⟩ := hr'
    omega

/-- Witness for C7: the run whose process is terminated at 500 ms. -/
theorem C7_witness :
    (exitProcess (tickBy 500 sLoaded)).log = [(0, loadMsg)] ∧
    (exitProcess (tickBy 500 sLoaded)).firedCount = 0 ∧
    (exitProcess (tickBy 500 sLoaded)).errored = false ∧
    (∀ s', (exitProcess (tickBy 500 sLoaded)).alive = false →
      ¬ Step true (exitProcess (tickBy 500 sLoaded)) s') :=
  C7_early_termination_only_load_marker true _
    (Reachable.step (Reachable.step Reachable.load
      (Step.tick 500 sLoaded rfl)) (Step.exit _ rfl))
    (by decide)

/-- Claim C8: the probe handles no failure itself — when the managed
runtime context is unobtainable the deferred body merely lets the error
propagate to the host (it changes nothing but the propagated-error flag:
no catch, no report, no retry, no cleanup), and in every reachable state
of such a run the log never grows past the load marker, so the absence of
the later lines is the only observable signal. -/
theorem C8_failure_propagates_unhandled (s s' : HostState)
    (hr : Reachable false s') :
    timeoutBody false s = { s with errored := true } ∧
    s'.log = [(0, loadMsg)] := by
  refine ⟨rfl, ?_⟩
  obtain ⟨hsched, hl | hr'⟩ := reachable_inv hr
  · exact hl.2.2.1
  · exact (hr'.2.2.choose_spec.2.2.2 rfl).1

/-- Witness for C8: the loaded state of a run whose managed runtime is
unavailable. -/
theorem C8_witness :
    timeoutBody false sLoaded = { sLoaded with errored := true } ∧
    sLoaded.log = [(0, loadMsg)] :=
  C8_failure_propagates_unhandled sLoaded sLoaded Reachable.load

/-- Claim C9: the complete run makes exactly four log-write calls, yet the
rendered console output consists of five newline-delimited lines (then the
final terminator of the last write): the second call's string begins with
a leading newline, so the blank separator line and the attachment-success
marker are produced atomically by that one write and the blank line is
immediately followed by the attachment marker. -/
theorem C9_four_writes_five_output_lines :
    (hostRun true none).log.length = 4 ∧
    outputLines (renderOutput (hostRun true none).log) =
      [loadMsg, "", attachLine, javaReadyMsg, noCrashMsg, ""] ∧
    attachMsg = "\n" ++ attachLine := by
  decide

/-- Claim C10: the probe is deterministic — any two runs in which the
timer fired and the managed-runtime context callback executed produce the
identical fixed sequence of constant strings, namely the four markers. -/
theorem C10_deterministic_output (s₁ s₂ : HostState)
    (h₁ : Reachable true s₁) (h₂ : Reachable true s₂)
    (hf₁ : s₁.firedCount = 1) (hf₂ : s₂.firedCount = 1) :
    s₁.log.map Prod.snd = s₂.log.map Prod.snd ∧
    s₁.log.map Prod.snd = [loadMsg, attachMsg, javaReadyMsg, noCrashMsg] := by
  obtain ⟨t₁, ht₁, hlog₁⟩ := fired_log h₁ hf₁
  obtain ⟨t₂, ht₂, hlog₂⟩ := fired_log h₂ hf₂
  rw [hlog₁, hlog₂]
  exact ⟨rfl, rfl⟩

/-- Witness for C10: two concrete complete runs with different schedules —
one fires at 1000 ms, the other at 1500 ms followed by 500 ms more of
process lifetime. -/
theorem C10_witness :
    (fireTimer true theTimer (tickBy 1000 sLoaded)).log.map Prod.snd =
      (tickBy 500 (fireTimer true theTimer (tickBy 1500 sLoaded))).log.map Prod.snd ∧
    (fireTimer true theTimer (tickBy 1000 sLoaded)).log.map Prod.snd =
      [loadMsg, attachMsg, javaReadyMsg, noCrashMsg] :=
  C10_deterministic_output _ _
    (fireAt_reachable true 1000 (by decide))
    (Reachable.step (fireAt_reachable true 1500 (by decide))
      (Step.tick 500 _ (by decide)))
    (by decide) (by decide)

end HookOpen
